import Mathlib

/-!
Verification of the nuts-tracker core (`src/components/Frame.tsx`).

The embedding models JS numbers as `Int` (millisecond timestamps may be
negative) and non-negative counts as `Nat`.  JS `Date` UTC accessors are
embedded through the ECMA-262 day-number decomposition: a timestamp `t`
splits into `Day(t) = t / 86400000` and `TimeWithinDay(t) = t % 86400000`
(Lean's `Int` `/` and `%` are Euclidean division, which agrees with the
floor semantics ECMA-262 prescribes, the divisors being positive), and the
proleptic-Gregorian conversions `civilFromDays` / `daysFromCivil` realise
`YearFromTime` / `MonthFromTime` / `DateFromTime` / `MakeDay`.  Years are
handled March-first within 400-year eras, so month lengths follow the
uniform 153-day five-month pattern; `YearFromTime` is realised as ECMA-262
states it: the largest year whose first day is not after the given day.
-/

/-- ECMA-262 `Day(t)`: the UTC day number holding timestamp `t`. -/
def dayNumber (t : Int) : Int := t / 86400000

/-- ECMA-262 `TimeWithinDay(t)`: milliseconds since the start of the UTC day. -/
def timeWithinDay (t : Int) : Int := t % 86400000

/-- ECMA-262 `HourFromTime(t)`: JS `Date.prototype.getUTCHours`. -/
def hourFromTime (t : Int) : Int := t % 86400000 / 3600000

/-- A civil (proleptic Gregorian) date: year, month in 1..12, day in 1..31. -/
structure Civil where
  year : Int
  month : Int
  day : Int
deriving Repr, DecidableEq

/-- Day-of-era of the first day of March-based year-of-era `y` (0 ≤ y ≤ 399):
365 days per year plus a leap day after each year divisible by 4, minus the
century exceptions. -/
def dstar (y : Int) : Int := 365 * y + y / 4 - y / 100

/-- The largest year-of-era `y ≤ n` whose first day `dstar y` is not after
`doe` (0 when none is), searched from `n` downward.  This is ECMA-262's
characterisation of `YearFromTime`, restricted to one 400-year era. -/
def findYoe : Nat → Int → Int
  | 0, _ => 0
  | n + 1, doe => if dstar ((n : Int) + 1) ≤ doe then (n : Int) + 1 else findYoe n doe

/-- Day number (days since 1970-01-01) to civil date (Gregorian calendar),
realising ECMA-262 `YearFromTime` / `MonthFromTime` / `DateFromTime`:
split into 400-year era and day-of-era, find the year-of-era, then read the
month and day-of-month off the March-based day-of-year. -/
def civilFromDays (z : Int) : Civil :=
  let zs := z + 719468
  let era := zs / 146097
  let doe := zs % 146097
  let yoe := findYoe 399 doe
  let y := yoe + era * 400
  let doy := doe - dstar yoe
  let mp := (5 * doy + 2) / 153
  let d := doy - (153 * mp + 2) / 5 + 1
  let m := mp + (if mp < 10 then 3 else -9)
  { year := y + (if m ≤ 2 then 1 else 0), month := m, day := d }

/-- Civil date to day number (days since 1970-01-01), realising the day part
of ECMA-262 `MakeDay`. -/
def daysFromCivil (y m d : Int) : Int :=
  let ys := y - (if m ≤ 2 then 1 else 0)
  let era := ys / 400
  let yoe := ys - era * 400
  let doy := (153 * (m + (if m > 2 then -3 else 9)) + 2) / 5 + d - 1
  let doe := yoe * 365 + yoe / 4 - yoe / 100 + doy
  era * 146097 + doe - 719468

theorem findYoe_nonneg (n : Nat) (doe : Int) : 0 ≤ findYoe n doe := by
  induction n with
  | zero => simp [findYoe]
  | succ n ih =>
    simp only [findYoe]
    split
    · omega
    · exact ih

theorem findYoe_le (n : Nat) (doe : Int) : findYoe n doe ≤ (n : Int) := by
  induction n with
  | zero => simp [findYoe]
  | succ n ih =>
    simp only [findYoe]
    split
    · omega
    · omega

theorem findYoe_dstar_le (n : Nat) (doe : Int) (h : 0 ≤ doe) :
    dstar (findYoe n doe) ≤ doe := by
  induction n with
  | zero => simpa [findYoe, dstar] using h
  | succ n ih =>
    simp only [findYoe]
    split
    · assumption
    · exact ih

theorem findYoe_maximal (n : Nat) (doe : Int) (y : Int) (h0 : 0 ≤ y)
    (hy : y ≤ (n : Int)) (hd : dstar y ≤ doe) : y ≤ findYoe n doe := by
  induction n with
  | zero => simp only [findYoe]; omega
  | succ n ih =>
    simp only [findYoe]
    split
    · omega
    · rename_i hcond
      have hy' : y ≤ (n : Int) := by
        by_contra hcon
        have hEq : y = (n : Int) + 1 := by push_cast at hy ⊢; omega
        rw [hEq] at hd
        exact hcond hd
      exact ih hy'

/-- Bounds on the searched year-of-era that make the month/day formulas work:
it lies in `[0, 399]`, its first day is not after `doe`, and `doe` is less
than 366 days after that first day. -/
theorem findYoe_bounds (doe : Int) (h0 : 0 ≤ doe) (h1 : doe < 146097) :
    0 ≤ findYoe 399 doe ∧ findYoe 399 doe ≤ 399 ∧
    dstar (findYoe 399 doe) ≤ doe ∧ doe < dstar (findYoe 399 doe) + 366 := by
  refine ⟨findYoe_nonneg _ _, by simpa using findYoe_le 399 doe,
    findYoe_dstar_le _ _ h0, ?_⟩
  by_cases htop : findYoe 399 doe = 399
  · rw [htop]
    have hval : dstar 399 = 145731 := by norm_num [dstar]
    omega
  · have hle399 : findYoe 399 doe ≤ 399 := by simpa using findYoe_le 399 doe
    have hnn : 0 ≤ findYoe 399 doe := findYoe_nonneg _ _
    have hnot : ¬ dstar (findYoe 399 doe + 1) ≤ doe := by
      intro hcon
      have := findYoe_maximal 399 doe (findYoe 399 doe + 1) (by omega)
        (by push_cast; omega) hcon
      omega
    have hstep : dstar (findYoe 399 doe + 1) ≤ dstar (findYoe 399 doe) + 366 := by
      simp only [dstar]; omega
    omega

/-- Evaluation of `daysFromCivil` on the civil triple that `civilFromDays`
builds from an era `E`, a year-of-era `Y` and a day-of-year whose month
quotient is `mp`: it lands on day-of-era `dstar Y + D` of era `E`. -/
theorem daysFromCivil_eval (Y E D mp : Int) (h0 : 0 ≤ Y) (h1 : Y ≤ 399)
    (hmp0 : 0 ≤ mp) (hmp1 : mp ≤ 11) :
    daysFromCivil
      (Y + E * 400 + (if mp + (if mp < 10 then 3 else -9) ≤ 2 then 1 else 0))
      (mp + (if mp < 10 then 3 else -9))
      (D - (153 * mp + 2) / 5 + 1)
      = E * 146097 + dstar Y + D - 719468 := by
  simp only [daysFromCivil, dstar]
  split_ifs <;>
    simp only [add_zero, sub_zero, add_sub_cancel_right, add_neg_cancel_right,
      neg_add_cancel_right] <;>
    omega

/-- `daysFromCivil` inverts `civilFromDays`. -/
theorem daysFromCivil_civilFromDays (z : Int) :
    daysFromCivil (civilFromDays z).year (civilFromDays z).month
      (civilFromDays z).day = z := by
  obtain ⟨h0, h399, hle, hlt⟩ := findYoe_bounds ((z + 719468) % 146097)
    (Int.emod_nonneg _ (by norm_num)) (Int.emod_lt_of_pos _ (by norm_num))
  have hmp0 : 0 ≤ (5 * ((z + 719468) % 146097 -
      dstar (findYoe 399 ((z + 719468) % 146097))) + 2) / 153 := by omega
  have hmp1 : (5 * ((z + 719468) % 146097 -
      dstar (findYoe 399 ((z + 719468) % 146097))) + 2) / 153 ≤ 11 := by omega
  simp only [civilFromDays]
  rw [daysFromCivil_eval (findYoe 399 ((z + 719468) % 146097))
    ((z + 719468) / 146097)
    ((z + 719468) % 146097 - dstar (findYoe 399 ((z + 719468) % 146097)))
    ((5 * ((z + 719468) % 146097 -
      dstar (findYoe 399 ((z + 719468) % 146097))) + 2) / 153)
    h0 h399 hmp0 hmp1]
  omega

/-- `daysFromCivil` is linear in the day-of-month argument. -/
theorem daysFromCivil_day_shift (y m d : Int) :
    daysFromCivil y m d = daysFromCivil y m 1 + (d - 1) := by
  simp only [daysFromCivil]
  split_ifs <;> omega

/-- JS `Date.prototype.getUTCDate`: the UTC day-of-month of `t`. -/
def getUTCDate (t : Int) : Int := (civilFromDays (dayNumber t)).day

/-- JS `Date.prototype.setUTCDate`, per ECMA-262
`MakeDate(MakeDay(YearFromTime(t), MonthFromTime(t), v), TimeWithinDay(t))`:
`MakeDay` is the day number of the first of the current month plus `v - 1`. -/
def setUTCDate (t v : Int) : Int :=
  (daysFromCivil (civilFromDays (dayNumber t)).year
      (civilFromDays (dayNumber t)).month 1 + (v - 1)) * 86400000 +
    timeWithinDay t

/-- JS `Date.prototype.setUTCHours(h, min, s, ms)`, per ECMA-262
`MakeDate(Day(t), MakeTime(h, min, s, ms))`. -/
def setUTCHours (t h min s ms : Int) : Int :=
  dayNumber t * 86400000 + (h * 3600000 + min * 60000 + s * 1000 + ms)

/-- `setUTCDate (getUTCDate - 1)` lands exactly one UTC day earlier,
also across month and year boundaries. -/
theorem dayNumber_setUTCDate_pred (t : Int) :
    dayNumber (setUTCDate t (getUTCDate t - 1)) = dayNumber t - 1 := by
  have hrt := daysFromCivil_civilFromDays (dayNumber t)
  have hshift := daysFromCivil_day_shift (civilFromDays (dayNumber t)).year
    (civilFromDays (dayNumber t)).month (civilFromDays (dayNumber t)).day
  simp only [setUTCDate, getUTCDate, dayNumber, timeWithinDay] at *
  omega

/-- Result record of `calculateDailyAllowance` in `Frame.tsx`. -/
structure AllowanceResult where
  remaining : Int
  nextReset : Int
deriving Repr, DecidableEq

/-- `calculateDailyAllowance` from `Frame.tsx`: `lastReset` starts as a copy
of `now`, is moved to the previous UTC calendar day when
`now.getUTCHours() < RESET_HOUR_UTC`, then snapped to
`RESET_HOUR_UTC:00:00.000`; the result carries
`DAILY_ALLOWANCE - nutsData.sent` and `lastReset.getTime() + 86400000`.
The configuration constants `RESET_HOUR_UTC` and `DAILY_ALLOWANCE` live in
`~/lib/constants`, outside the given sources, so they are parameters here. -/
def calculateDailyAllowance (nowMs : Int) (sent : Nat)
    (RESET_HOUR_UTC DAILY_ALLOWANCE : Int) : AllowanceResult :=
  let lastReset := nowMs
  let lastReset := if hourFromTime nowMs < RESET_HOUR_UTC
    then setUTCDate lastReset (getUTCDate nowMs - 1)
    else lastReset
  let lastReset := setUTCHours lastReset RESET_HOUR_UTC 0 0 0
  { remaining := DAILY_ALLOWANCE - (sent : Int),
    nextReset := lastReset + 86400000 }

set_option maxRecDepth 8000 in
theorem civilFromDays_epoch : civilFromDays 0 = ⟨1970, 1, 1⟩ := by decide

set_option maxRecDepth 8000 in
theorem civilFromDays_leap_day : civilFromDays 19782 = ⟨2024, 2, 29⟩ := by decide

set_option maxRecDepth 8000 in
theorem civilFromDays_spec_example : civilFromDays 20129 = ⟨2025, 2, 10⟩ := by decide

/-- The `nutsData` record held by `NutsTrackerCard` in `Frame.tsx`. -/
structure NutsData where
  sent : Nat
  received : Nat
  failedAttempts : Nat
  lastUpdated : Int
deriving Repr, DecidableEq

/-- The React state of `NutsTrackerCard`: the `nutsData` record plus the
`isLoading` and `error` flags. -/
structure ComponentState where
  nutsData : NutsData
  isLoading : Bool
  error : String
deriving Repr, DecidableEq

/-- The `useState` initialisers of `NutsTrackerCard`:
`{ sent: 0, received: 0, failedAttempts: 0, lastUpdated: Date.now() }`,
`useState(true)` for the loading flag and `useState("")` for the error. -/
def initialState (nowMs : Int) : ComponentState :=
  { nutsData :=
      { sent := 0, received := 0, failedAttempts := 0, lastUpdated := nowMs },
    isLoading := true,
    error := "" }

/-- A raw feed event (`cast`) as read by `fetchNutsData`: the author fid,
the optional parent-author fid when the cast is a reply, and the text. -/
structure Cast where
  authorFid : Nat
  parentAuthorFid : Option Nat
  text : List Char
deriving Repr, DecidableEq

/-- The nut token marker matched by the regex `/🥜/g`. -/
def nutChar : Char := '🥜'

/-- Number of matches of `/🥜/g` in `text`: the marker is one Unicode
scalar, so the global regex counts its literal occurrences. -/
def countNutMarks (text : List Char) : Nat := text.count nutChar

/-- The aggregation loop of `fetchNutsData` (`data.casts.forEach`): a cast
authored by `fid` adds its marker count to `sentNuts`, and a cast whose
parent author is `fid` adds its marker count to `receivedNuts`; the two
conditions are tested independently on every cast. -/
def aggregateCasts (casts : List Cast) (fid : Nat) : Nat × Nat :=
  casts.foldl
    (fun acc cast =>
      ((if cast.authorFid = fid then acc.1 + countNutMarks cast.text
        else acc.1),
       (if cast.parentAuthorFid = some fid then acc.2 + countNutMarks cast.text
        else acc.2)))
    (0, 0)

/-- Outcome of the `fetch` + `response.json()` of one refresh cycle: a
parsed batch of casts, or a thrown error (network or parse failure). -/
inductive FetchOutcome where
  | success (casts : List Cast)
  | failure
deriving Repr, DecidableEq

/-- One run of `fetchNutsData` from `Frame.tsx`, as a state transformer.
On success it aggregates the fetched batch, replaces `nutsData` wholesale —
carrying forward only `failedAttempts`, incremented when
`sentNuts > DAILY_ALLOWANCE` — stamps `lastUpdated` with `Date.now()` and
clears the error; on a thrown error it sets the error message and leaves
`nutsData` untouched.  The `finally` clause clears the loading flag on
both paths. -/
def fetchNutsData (st : ComponentState) (fid : Nat) (outcome : FetchOutcome)
    (DAILY_ALLOWANCE nowMs : Int) : ComponentState :=
  match outcome with
  | .success casts =>
    let sentNuts := (aggregateCasts casts fid).1
    let receivedNuts := (aggregateCasts casts fid).2
    { nutsData :=
        { sent := sentNuts,
          received := receivedNuts,
          failedAttempts := st.nutsData.failedAttempts +
            (if (sentNuts : Int) > DAILY_ALLOWANCE then 1 else 0),
          lastUpdated := nowMs },
      error := "",
      isLoading := false }
  | .failure =>
    { nutsData := st.nutsData,
      error := "Failed to fetch nuts data",
      isLoading := false }

/-- What `NutsTrackerCard` renders, abstracted to the three top-level
branches of its JSX. -/
inductive RenderView where
  | errorView (msg : String)
  | loadingView
  | cardView
deriving Repr, DecidableEq

/-- The render branch selection of `NutsTrackerCard`: a non-empty `error`
string is truthy and wins, then the loading flag, then the card. -/
def renderNutsTracker (st : ComponentState) : RenderView :=
  if st.error ≠ "" then .errorView st.error
  else if st.isLoading then .loadingView
  else .cardView

/-- The "Daily Remaining" cell of the card renders
`remaining > 0 ? remaining : 0`. -/
def displayedRemaining (remaining : Int) : Int :=
  if remaining > 0 then remaining else 0

/-- The aggregation loop with an arbitrary starting accumulator adds the
per-predicate marker sums to it componentwise. -/
theorem aggregateCasts_foldl (casts : List Cast) (fid : Nat) (a b : Nat) :
    casts.foldl
      (fun acc cast =>
        ((if cast.authorFid = fid then acc.1 + countNutMarks cast.text
          else acc.1),
         (if cast.parentAuthorFid = some fid then
            acc.2 + countNutMarks cast.text
          else acc.2)))
      (a, b)
    = (a + ((casts.filter (fun c => c.authorFid = fid)).map
          (fun c => countNutMarks c.text)).sum,
       b + ((casts.filter (fun c => c.parentAuthorFid = some fid)).map
          (fun c => countNutMarks c.text)).sum) := by
  induction casts generalizing a b with
  | nil => simp
  | cons c cs ih =>
    simp only [List.foldl_cons, List.filter_cons]
    rw [ih]
    by_cases h1 : c.authorFid = fid <;>
      by_cases h2 : c.parentAuthorFid = some fid <;>
      simp [h1, h2] <;> omega

/-- C1, counterexample: with `DAILY_ALLOWANCE = 30` and `sentToday = 35`,
`calculateDailyAllowance` returns `remaining = -5`, which is negative and
differs from `max 0 (30 - 35) = 0`: the function itself does not clamp. -/
theorem calculateDailyAllowance_remaining_negative_cex :
    (calculateDailyAllowance 0 35 0 30).remaining = -5 ∧
    (calculateDailyAllowance 0 35 0 30).remaining < 0 ∧
    (calculateDailyAllowance 0 35 0 30).remaining ≠ max 0 ((30 : Int) - 35) := by
  refine ⟨rfl, by decide, by decide⟩

/-- C1, amended: `calculateDailyAllowance` returns
`remaining = dailyAllowance - sentToday` without clamping, so it is negative
whenever `sentToday > dailyAllowance`; the `max(0, ·)` clamp is applied only
at render time (`remaining > 0 ? remaining : 0`), and that displayed value
equals `max 0 (dailyAllowance - sentToday)` and is never negative. -/
theorem calculateDailyAllowance_remaining_formula (nowMs : Int) (sent : Nat)
    (RESET_HOUR_UTC DAILY_ALLOWANCE : Int) :
    (calculateDailyAllowance nowMs sent RESET_HOUR_UTC DAILY_ALLOWANCE).remaining
      = DAILY_ALLOWANCE - (sent : Int) ∧
    displayedRemaining
        (calculateDailyAllowance nowMs sent RESET_HOUR_UTC DAILY_ALLOWANCE).remaining
      = max 0 (DAILY_ALLOWANCE - (sent : Int)) ∧
    0 ≤ displayedRemaining
        (calculateDailyAllowance nowMs sent RESET_HOUR_UTC DAILY_ALLOWANCE).remaining := by
  simp only [calculateDailyAllowance, displayedRemaining]
  refine ⟨by trivial, ?_, ?_⟩ <;> split_ifs <;> omega

/-- C2: for every timestamp and every `RESET_HOUR_UTC` in `[0, 23]`, the
boundary `nextReset - 86400000` computed by `calculateDailyAllowance` falls
at `RESET_HOUR_UTC:00:00.000` UTC on the previous UTC calendar day when the
current UTC hour is strictly before `RESET_HOUR_UTC` and on the current UTC
calendar day otherwise, and `nextReset` is that boundary plus exactly
86,400,000 ms of absolute elapsed time. -/
theorem calculateDailyAllowance_reset_boundary (nowMs : Int) (sent : Nat)
    (RESET_HOUR_UTC DAILY_ALLOWANCE : Int)
    (h0 : 0 ≤ RESET_HOUR_UTC) (h23 : RESET_HOUR_UTC ≤ 23) :
    (calculateDailyAllowance nowMs sent RESET_HOUR_UTC DAILY_ALLOWANCE).nextReset
      = (if hourFromTime nowMs < RESET_HOUR_UTC then dayNumber nowMs - 1
          else dayNumber nowMs) * 86400000 + RESET_HOUR_UTC * 3600000
        + 86400000 ∧
    dayNumber
        ((calculateDailyAllowance nowMs sent RESET_HOUR_UTC DAILY_ALLOWANCE).nextReset
          - 86400000)
      = (if hourFromTime nowMs < RESET_HOUR_UTC then dayNumber nowMs - 1
          else dayNumber nowMs) ∧
    timeWithinDay
        ((calculateDailyAllowance nowMs sent RESET_HOUR_UTC DAILY_ALLOWANCE).nextReset
          - 86400000)
      = RESET_HOUR_UTC * 3600000 ∧
    hourFromTime
        ((calculateDailyAllowance nowMs sent RESET_HOUR_UTC DAILY_ALLOWANCE).nextReset
          - 86400000)
      = RESET_HOUR_UTC := by
  have hkey := dayNumber_setUTCDate_pred nowMs
  simp only [calculateDailyAllowance, setUTCHours]
  split_ifs with h
  · simp only [dayNumber, timeWithinDay, hourFromTime] at hkey ⊢
    refine ⟨by omega, by omega, by omega, by omega⟩
  · simp only [dayNumber, timeWithinDay, hourFromTime] at hkey ⊢
    refine ⟨by omega, by omega, by omega, by omega⟩

/-- C2, witness: `now = 2025-02-10T05:00:00Z`, `RESET_HOUR_UTC = 7` (hour 5
is before the cutoff): the boundary is 2025-02-09T07:00:00Z and `nextReset`
is 2025-02-10T07:00:00Z. -/
theorem calculateDailyAllowance_reset_boundary_witness :
    (0 : Int) ≤ 7 ∧ (7 : Int) ≤ 23 ∧
    (calculateDailyAllowance 1739163600000 12 7 30).nextReset
      = 1739170800000 := by
  refine ⟨by norm_num, by norm_num, ?_⟩
  rw [(calculateDailyAllowance_reset_boundary 1739163600000 12 7 30
    (by norm_num) (by norm_num)).1]
  decide

/-- C3: `failedAttempts` never decreases on any refresh cycle; a successful
cycle increments it by exactly 1 when the cycle's aggregated `sentNuts`
strictly exceeds `DAILY_ALLOWANCE` and leaves it unchanged otherwise; and
the new value depends only on the current batch and the previous
`failedAttempts`, not on the previous cycles' `sent` values. -/
theorem fetchNutsData_failedAttempts_monotone (st : ComponentState)
    (fid : Nat) (casts : List Cast) (DAILY_ALLOWANCE nowMs : Int) :
    (∀ outcome : FetchOutcome, st.nutsData.failedAttempts ≤
      (fetchNutsData st fid outcome DAILY_ALLOWANCE nowMs).nutsData.failedAttempts) ∧
    (((aggregateCasts casts fid).1 : Int) > DAILY_ALLOWANCE →
      (fetchNutsData st fid (.success casts) DAILY_ALLOWANCE nowMs).nutsData.failedAttempts
        = st.nutsData.failedAttempts + 1) ∧
    (¬ ((aggregateCasts casts fid).1 : Int) > DAILY_ALLOWANCE →
      (fetchNutsData st fid (.success casts) DAILY_ALLOWANCE nowMs).nutsData.failedAttempts
        = st.nutsData.failedAttempts) ∧
    (∀ st2 : ComponentState,
      st2.nutsData.failedAttempts = st.nutsData.failedAttempts →
      (fetchNutsData st2 fid (.success casts) DAILY_ALLOWANCE nowMs).nutsData.failedAttempts
        = (fetchNutsData st fid (.success casts) DAILY_ALLOWANCE nowMs).nutsData.failedAttempts) := by
  refine ⟨?_, ?_, ?_, ?_⟩
  · intro outcome
    cases outcome <;> simp [fetchNutsData]
  · intro h
    simp [fetchNutsData, h]
  · intro h
    simp [fetchNutsData, h]
  · intro st2 h
    simp [fetchNutsData, h]

/-- C3, witness: the spec's overage scenario with `DAILY_ALLOWANCE = 30`: a
cycle whose batch aggregates to `sent = 35` (the subject authored one cast
with 35 markers) increments `failedAttempts` from 0 to 1. -/
theorem fetchNutsData_failedAttempts_monotone_witness :
    ((aggregateCasts [⟨1, none, List.replicate 35 nutChar⟩] 1).1 : Int) > 30 ∧
    (fetchNutsData (initialState 0) 1
        (.success [⟨1, none, List.replicate 35 nutChar⟩]) 30 5).nutsData.failedAttempts
      = (initialState 0).nutsData.failedAttempts + 1 :=
  ⟨by decide,
   (fetchNutsData_failedAttempts_monotone (initialState 0) 1
      [⟨1, none, List.replicate 35 nutChar⟩] 30 5).2.1 (by decide)⟩

/-- C4: a refresh cycle whose fetch or parsing throws leaves every field of
`nutsData` — `sent`, `received`, `failedAttempts`, `lastUpdated` — exactly
equal to its pre-cycle value (the whole record is untouched), and sets the
error indicator. -/
theorem fetchNutsData_failure_preserves_state (st : ComponentState)
    (fid : Nat) (DAILY_ALLOWANCE nowMs : Int) :
    (fetchNutsData st fid .failure DAILY_ALLOWANCE nowMs).nutsData.sent
      = st.nutsData.sent ∧
    (fetchNutsData st fid .failure DAILY_ALLOWANCE nowMs).nutsData.received
      = st.nutsData.received ∧
    (fetchNutsData st fid .failure DAILY_ALLOWANCE nowMs).nutsData.failedAttempts
      = st.nutsData.failedAttempts ∧
    (fetchNutsData st fid .failure DAILY_ALLOWANCE nowMs).nutsData.lastUpdated
      = st.nutsData.lastUpdated ∧
    (fetchNutsData st fid .failure DAILY_ALLOWANCE nowMs).nutsData
      = st.nutsData ∧
    (fetchNutsData st fid .failure DAILY_ALLOWANCE nowMs).error
      = "Failed to fetch nuts data" := by
  simp [fetchNutsData]

/-- C5: the aggregation returns `sent` equal to the sum of marker counts
over casts authored by the subject, `received` equal to the sum over casts
whose parent author is the subject (casts matching neither contribute to
neither), and the marker count of a text is the number of literal
occurrences of the marker character. -/
theorem aggregateCasts_filter_sums (casts : List Cast) (fid : Nat) :
    (aggregateCasts casts fid).1
      = ((casts.filter (fun c => c.authorFid = fid)).map
          (fun c => countNutMarks c.text)).sum ∧
    (aggregateCasts casts fid).2
      = ((casts.filter (fun c => c.parentAuthorFid = some fid)).map
          (fun c => countNutMarks c.text)).sum ∧
    (∀ t : List Char, countNutMarks t
      = (t.filter (fun c => c = nutChar)).length) := by
  refine ⟨?_, ?_, ?_⟩
  · rw [aggregateCasts, aggregateCasts_foldl]
    simp
  · rw [aggregateCasts, aggregateCasts_foldl]
    simp
  · intro t
    induction t with
    | nil => simp [countNutMarks]
    | cons c cs ih =>
      by_cases h : c = nutChar <;>
        simp [countNutMarks, List.count_cons, h] <;>
        simp [countNutMarks] at ih <;> omega

/-- C6: a self-reply — a cast whose author and parent author are both the
subject — containing `k` markers adds `k` to `sent` and `k` to `received`
in the same cycle; the two conditions are tested independently, with no
double-counting suppression. -/
theorem aggregateCasts_self_reply (casts : List Cast) (c : Cast)
    (fid k : Nat) (h1 : c.authorFid = fid) (h2 : c.parentAuthorFid = some fid)
    (h3 : countNutMarks c.text = k) :
    aggregateCasts (casts ++ [c]) fid
      = ((aggregateCasts casts fid).1 + k, (aggregateCasts casts fid).2 + k) := by
  simp [aggregateCasts, List.foldl_append, h1, h2, h3]

/-- C6, witness: the spec's self-reply scenario: a cast with
`authorId = parentAuthorId = subjectId = 1` and 2 markers contributes 2 to
`sent` and 2 to `received`. -/
theorem aggregateCasts_self_reply_witness :
    (Cast.mk 1 (some 1) ['a', '🥜', 'b', '🥜']).authorFid = 1 ∧
    (Cast.mk 1 (some 1) ['a', '🥜', 'b', '🥜']).parentAuthorFid = some 1 ∧
    countNutMarks (Cast.mk 1 (some 1) ['a', '🥜', 'b', '🥜']).text = 2 ∧
    aggregateCasts ([] ++ [Cast.mk 1 (some 1) ['a', '🥜', 'b', '🥜']]) 1
      = ((aggregateCasts [] 1).1 + 2, (aggregateCasts [] 1).2 + 2) :=
  ⟨rfl, rfl, by decide,
   aggregateCasts_self_reply [] (Cast.mk 1 (some 1) ['a', '🥜', 'b', '🥜'])
     1 2 rfl rfl (by decide)⟩

/-- C7: a successful refresh cycle replaces `sent` and `received` wholesale
with the aggregates of the freshly fetched batch, stamps `lastUpdated` with
the current wall-clock time, clears the error flag, and carries forward
only `failedAttempts` from the previous state: two previous states agreeing
on `failedAttempts` produce identical post-cycle states. -/
theorem fetchNutsData_success_replaces_state (st : ComponentState)
    (fid : Nat) (casts : List Cast) (DAILY_ALLOWANCE nowMs : Int) :
    (fetchNutsData st fid (.success casts) DAILY_ALLOWANCE nowMs).nutsData.sent
      = (aggregateCasts casts fid).1 ∧
    (fetchNutsData st fid (.success casts) DAILY_ALLOWANCE nowMs).nutsData.received
      = (aggregateCasts casts fid).2 ∧
    (fetchNutsData st fid (.success casts) DAILY_ALLOWANCE nowMs).nutsData.lastUpdated
      = nowMs ∧
    (fetchNutsData st fid (.success casts) DAILY_ALLOWANCE nowMs).error = "" ∧
    (fetchNutsData st fid (.success casts) DAILY_ALLOWANCE nowMs).nutsData.failedAttempts
      = st.nutsData.failedAttempts +
        (if ((aggregateCasts casts fid).1 : Int) > DAILY_ALLOWANCE then 1
          else 0) ∧
    (∀ st2 : ComponentState,
      st2.nutsData.failedAttempts = st.nutsData.failedAttempts →
      fetchNutsData st2 fid (.success casts) DAILY_ALLOWANCE nowMs
        = fetchNutsData st fid (.success casts) DAILY_ALLOWANCE nowMs) := by
  refine ⟨rfl, rfl, rfl, rfl, rfl, ?_⟩
  intro st2 h
  simp [fetchNutsData, h]

/-- C8: the aggregation is pure and deterministic: the counts computed from
a given batch and subject are the same whatever component state, allowance
or clock surrounds the cycle, and re-running a cycle on the same batch
reproduces the same `sent` and `received` (wholesale replacement makes the
re-run idempotent on the counts). -/
theorem aggregateCasts_pure_deterministic (casts : List Cast) (fid : Nat)
    (st1 st2 : ComponentState) (DA1 DA2 now1 now2 : Int) :
    ((fetchNutsData st1 fid (.success casts) DA1 now1).nutsData.sent
       = (fetchNutsData st2 fid (.success casts) DA2 now2).nutsData.sent ∧
     (fetchNutsData st1 fid (.success casts) DA1 now1).nutsData.received
       = (fetchNutsData st2 fid (.success casts) DA2 now2).nutsData.received) ∧
    ((fetchNutsData (fetchNutsData st1 fid (.success casts) DA1 now1) fid
        (.success casts) DA1 now1).nutsData.sent
       = (fetchNutsData st1 fid (.success casts) DA1 now1).nutsData.sent ∧
     (fetchNutsData (fetchNutsData st1 fid (.success casts) DA1 now1) fid
        (.success casts) DA1 now1).nutsData.received
       = (fetchNutsData st1 fid (.success casts) DA1 now1).nutsData.received) :=
  ⟨⟨rfl, rfl⟩, ⟨rfl, rfl⟩⟩

/-- C9: at session start, before any refresh cycle, the tracker state is
exactly `sent = 0`, `received = 0`, `failedAttempts = 0`, and `lastUpdated`
carries the wall-clock time of state creation (`Date.now()` in the
`useState` initialiser), not a sentinel. -/
theorem initialState_session_start (nowMs : Int) :
    (initialState nowMs).nutsData.sent = 0 ∧
    (initialState nowMs).nutsData.received = 0 ∧
    (initialState nowMs).nutsData.failedAttempts = 0 ∧
    (initialState nowMs).nutsData.lastUpdated = nowMs :=
  ⟨rfl, rfl, rfl, rfl⟩

/-- C10: the `finally` clause clears the loading flag on every cycle,
whatever the outcome; in particular a failed first fetch from the initial
state renders the error view, not the loading view. -/
theorem fetchNutsData_clears_loading (st : ComponentState) (fid : Nat)
    (outcome : FetchOutcome) (DAILY_ALLOWANCE nowMs t0 : Int) :
    (fetchNutsData st fid outcome DAILY_ALLOWANCE nowMs).isLoading = false ∧
    renderNutsTracker
        (fetchNutsData (initialState t0) fid .failure DAILY_ALLOWANCE nowMs)
      = RenderView.errorView "Failed to fetch nuts data" := by
  constructor
  · cases outcome <;> rfl
  · simp [fetchNutsData, renderNutsTracker, initialState]
